import Mathlib

/-!
Shallow embedding of the `blackjack-sim` repository (Python) in Lean 4,
with theorems settling the frozen claims about its specification.

Source files embedded: `blackjack_sim/core.py`, `blackjack_sim/engine.py`,
`blackjack_sim/strategy.py`.  Money amounts (bankroll, bets, wagers) are
modelled as `ℚ` (Python mixes `int` and `float`; all arithmetic involved is
exact decimal, e.g. payout 1.5, half-wager surrender refunds).  Card values
are `ℕ`.  The shoe is modelled as the list of cards in draw order (Python
pops from the end of a shuffled list; only the drawn sequence matters).
-/

namespace Blackjack

/-- `core.py` `Action` enum (the UI strings attached to each member are
presentation-only and not modelled). -/
inductive Action where
  | hit
  | stand
  | surrender
  | double
  | split
deriving DecidableEq, Repr

/-- `core.py` `Card`: a rank+suit label and a numeric value. -/
structure Card where
  name : String
  value : Nat
deriving DecidableEq, Repr

/-- `Card.is_ace`: `self.value == 11`. -/
def Card.is_ace (c : Card) : Bool :=
  c.value == 11

/-- `core.py` `Hand`: an ordered list of cards plus name, wager and the
surrender flag (`Hand` subclasses `List[Card]` in Python; here the card list
is the `cards` field). -/
structure Hand where
  cards : List Card
  name : String := ""
  wager : ℚ := 0
  surrendered : Bool := false
deriving DecidableEq, Repr

/-- The ace-reduction loop of `Hand._value`:
`while value > 21 and ace_count: value -= 10; ace_count -= 1`.
First argument is the running value, second the reducible-ace counter. -/
def reduceAces : Nat → Nat → Nat × Nat
  | v, 0 => (v, 0)
  | v, a + 1 => if 21 < v then reduceAces (v - 10) a else (v, a + 1)

/-- `sum([c.value for c in self])`. -/
def Hand.cardSum (h : Hand) : Nat :=
  (h.cards.map Card.value).sum

/-- `sum([c.is_ace() for c in self])` (Python `True` counts as 1). -/
def Hand.aceCount (h : Hand) : Nat :=
  (h.cards.filter Card.is_ace).length

/-- `Hand._value`: returns the hand value and the softness flag
`(value, ace_count > 0)` after the reduction loop. -/
def Hand.valuePair (h : Hand) : Nat × Bool :=
  let (v, a) := reduceAces h.cardSum h.aceCount
  (v, decide (0 < a))

/-- `Hand.value`. -/
def Hand.value (h : Hand) : Nat :=
  h.valuePair.1

/-- `Hand.is_soft`. -/
def Hand.is_soft (h : Hand) : Bool :=
  h.valuePair.2

/-- `Hand.has_ace`: `any(c.is_ace() for c in self)`. -/
def Hand.has_ace (h : Hand) : Bool :=
  h.cards.any Card.is_ace

/-- `Hand.is_bust`: `self.value() > 21`. -/
def Hand.is_bust (h : Hand) : Bool :=
  decide (21 < h.value)

/-- `Hand.is_blackjack`: `self.value() == 21`. -/
def Hand.is_blackjack (h : Hand) : Bool :=
  h.value == 21

/-- `Hand.can_split`: `(len(self) == 2) and (self[0].name[0] == self[1].name[0])`
(first character of the name is the rank label; the suit follows it). -/
def Hand.can_split (h : Hand) : Bool :=
  match h.cards with
  | [c1, c2] => c1.name.front == c2.name.front
  | _ => false

/-- `Hand.double`: `self._wager *= 2`. -/
def Hand.double (h : Hand) : Hand :=
  { h with wager := h.wager * 2 }

/-- `Hand.surrender`: sets the surrendered flag. -/
def Hand.setSurrendered (h : Hand) : Hand :=
  { h with surrendered := true }

/-- The suit strings used by `Shoe.__init__` (`♠️` etc.). -/
def shoeSuits : List String :=
  ["♠️", "♥️", "♦️", "♣️"]

/-- The face strings used by `Shoe.__init__`. -/
def shoeFaces : List String :=
  ["2", "3", "4", "5", "6", "7", "8", "9", "T", "J", "Q", "K", "A"]

/-- Card value assigned by `Shoe.__init__` for a face: ace is 11, the four
ten-cards are 10, numerals parse to their face value (`int(face)`; every
numeral face is a single decimal digit). -/
def faceValue (f : String) : Nat :=
  if f == "A" then 11
  else if f == "T" || f == "J" || f == "Q" || f == "K" then 10
  else match f.data with
    | [c] => c.toNat - '0'.toNat
    | _ => 0

/-- Card built by `Shoe.__init__`: `Card(f"{face}{suit}", value)`. -/
def mkCard (face suit : String) : Card :=
  { name := face ++ suit, value := faceValue face }

/-- A hand as dealt/assembled by the engine, from a card list only. -/
def mkHand (cs : List Card) : Hand :=
  { cards := cs }

/-- Appending one card to a hand (`hand.append(card)` in Python; hands are
append-only). -/
def Hand.addCard (h : Hand) (c : Card) : Hand :=
  { h with cards := h.cards ++ [c] }

/-! ### Specification-side hand valuation (for the refinement claim C1)

`specAceLoop` follows the spec's words in §4.1: "while the running total
exceeds 21 and at least one ace has not yet been reduced, subtract 10 and
decrement the reducible-ace counter". It is kept distinct from the
source-side `reduceAces` so the two can be compared. -/

/-- Spec §4.1 reduction loop, written as a while-loop on the pair
(running total, reducible-ace counter). -/
def specAceLoop (total aces : Nat) : Nat × Nat :=
  if h : 21 < total ∧ 0 < aces then specAceLoop (total - 10) (aces - 1)
  else (total, aces)
termination_by aces
decreasing_by omega

/-- Spec §4.1 valuation: sum all card values (aces as 11), run the reduction
loop; the hand is soft iff the reducible-ace counter is still above zero. -/
def specValuation (cs : List Card) : Nat × Bool :=
  let total := (cs.map Card.value).sum
  let aces := (cs.filter (fun c => c.value == 11)).length
  let (v, a) := specAceLoop total aces
  (v, decide (0 < a))

/-! ### Engine embedding (`engine.py`) -/

/-- `engine.py` `GameOptions` with its defaults. -/
structure GameOptions where
  min_bet : ℚ := 10
  payout : ℚ := 3 / 2
  num_decks : Nat := 6
  shoe_min_percent : ℚ := 20
  hit_soft_seventeen : Bool := false
  double_after_split : Bool := true
  late_surrender : Bool := true
  max_split : Nat := 2
deriving DecidableEq, Repr

/-- Mutable state of a `Game`: bankroll, cumulative total wagered, the shoe
(as the list of remaining cards in draw order) with its original size (for
`percent_full`), and the cached dealer-upcard value. -/
structure GameState where
  bankroll : ℚ
  total_bet : ℚ
  shoe : List Card
  shoeSize : Nat
  upcard : Option Nat
deriving DecidableEq, Repr

/-- `Shoe.percent_full`: `(len(self) / self._num_cards) * 100.0`. -/
def percentFull (st : GameState) : ℚ :=
  ((st.shoe.length : ℚ) / (st.shoeSize : ℚ)) * 100

/-- Abnormal outcomes of engine steps. -/
inductive GameErr where
  /-- `EmptyShoeError` raised by `Shoe.draw`. -/
  | emptyShoe
  /-- a Python `assert` failure / `AssertionError`. -/
  | assertFail
  /-- artifact of the embedding: recursion fuel ran out. -/
  | outOfFuel
deriving DecidableEq, Repr

/-- Result of an engine step.  Python exceptions leave already-performed
mutations in place, so errors carry the state at raise time. -/
inductive Res (α : Type) where
  | ok : α → GameState → Res α
  | err : GameErr → GameState → Res α
deriving DecidableEq, Repr

/-- Functional model of the `Strategy` interface.  `get_bet` additionally
receives the round index (Python strategies may be stateful across rounds;
nothing more is needed by the engine claims).  `show_hand`/`show_result`
never affect engine state and are omitted. -/
structure StrategyM where
  get_bet : Nat → ℚ → ℚ → Option ℚ
  get_action : Hand → List Action → Option Nat → Action

/-- `Game._draw_card`: draw from the shoe into a hand; an empty shoe raises
`EmptyShoeError`.  When `is_upcard` is set the drawn card's value is cached. -/
def drawCard (h : Hand) (is_upcard : Bool) (st : GameState) : Res Hand :=
  match st.shoe with
  | [] => .err .emptyShoe st
  | c :: rest =>
      .ok (h.addCard c)
        { st with shoe := rest,
                  upcard := if is_upcard then some c.value else st.upcard }

/-- `Game._make_bet`: assert bankroll ≥ bet, then debit the bankroll and
credit the cumulative total wagered. -/
def makeBet (bet : ℚ) (st : GameState) : Res Unit :=
  if st.bankroll < bet then .err .assertFail st
  else .ok () { st with bankroll := st.bankroll - bet,
                        total_bet := st.total_bet + bet }

/-- Legal-action enumeration at the top of `Game._play_hand`. -/
def legalActions (opts : GameOptions) (bankroll : ℚ) (h : Hand) (bet : ℚ)
    (num_split : Nat) : List Action :=
  let a0 := [Action.hit, Action.stand]
  if h.cards.length == 2 then
    let a1 := if opts.late_surrender && (num_split == 0) then
        a0 ++ [Action.surrender] else a0
    if bet ≤ bankroll then
      let a2 := if opts.double_after_split || (num_split == 0) then
          a1 ++ [Action.double] else a1
      if h.can_split && decide (num_split < opts.max_split) then
        a2 ++ [Action.split]
      else a2
    else a1
  else a0

/-- `Game._play_hand`, with explicit recursion fuel (Python's recursion is
bounded by shoe depletion; every claim supplies enough fuel).  Returns the
list of terminal hands. -/
def playHand (opts : GameOptions) (strat : StrategyM) :
    Nat → Hand → ℚ → Nat → GameState → Res (List Hand)
  | 0, _, _, _, st => .err .outOfFuel st
  | fuel + 1, hand, bet, num_split, st =>
    let actions := legalActions opts st.bankroll hand bet num_split
    let action := strat.get_action hand actions st.upcard
    if action ∈ actions then
      match action with
      | .hit =>
        match drawCard hand false st with
        | .err e st' => .err e st'
        | .ok hand' st' =>
          if !(hand'.is_bust || hand'.is_blackjack) then
            playHand opts strat fuel hand' bet num_split st'
          else .ok [hand'] st'
      | .stand => .ok [hand] st
      | .surrender => .ok [hand.setSurrendered] st
      | .double =>
        match makeBet bet st with
        | .err e st' => .err e st'
        | .ok _ st' =>
          match drawCard hand false st' with
          | .err e st'' => .err e st''
          | .ok hand' st'' => .ok [hand'.double] st''
      | .split =>
        match hand.cards with
        | [c1, c2] =>
          match makeBet bet st with
          | .err e st' => .err e st'
          | .ok _ st' =>
            match drawCard { cards := [c1], name := hand.name ++ " Split 1",
                             wager := bet } false st' with
            | .err e st1 => .err e st1
            | .ok h1 st1 =>
              if hand.has_ace then
                match drawCard { cards := [c2], name := hand.name ++ " Split 2",
                                 wager := bet } false st1 with
                | .err e st2 => .err e st2
                | .ok h2 st2 => .ok [h1, h2] st2
              else
                match playHand opts strat fuel h1 bet (num_split + 1) st1 with
                | .err e stx => .err e stx
                | .ok hs1 st1' =>
                  match drawCard { cards := [c2], name := hand.name ++ " Split 2",
                                   wager := bet } false st1' with
                  | .err e st2 => .err e st2
                  | .ok h2 st2 =>
                    match playHand opts strat fuel h2 bet (num_split + 1) st2 with
                    | .err e sty => .err e sty
                    | .ok hs2 st2' => .ok (hs1 ++ hs2) st2'
        | _ => .err .assertFail st
    else .err .assertFail st

/-- `Game._compare_hands`: settle one player terminal hand against the final
dealer hand. -/
def compareHands (st : GameState) (player dealer : Hand) : GameState :=
  if player.is_bust then st
  else if dealer.is_bust then
    { st with bankroll := st.bankroll + 2 * player.wager }
  else if dealer.value < player.value then
    { st with bankroll := st.bankroll + 2 * player.wager }
  else if player.value == dealer.value then
    { st with bankroll := st.bankroll + player.wager }
  else st

/-- `strategy.py` `Dealer.get_action` decision rule (its asserts always hold
at the engine's call sites and are not modelled). -/
def dealerAction (hit_soft_seventeen : Bool) (h : Hand) : Action :=
  if h.is_soft && (h.value == 17) then
    if hit_soft_seventeen then .hit else .stand
  else if h.value < 17 then .hit
  else .stand

/-- The `Dealer` strategy as a `StrategyM` (its inherited `get_bet` returns
the minimum bet and is never called by the engine). -/
def dealerStrategy (hit_soft_seventeen : Bool) : StrategyM where
  get_bet := fun _ mb _ => some mb
  get_action := fun h _ _ => dealerAction hit_soft_seventeen h

/-- Dealer play and settlement phase of `Game._play_round` (reached when no
surrender short-circuit applies). -/
def dealerPhase (opts : GameOptions) (fuel : Nat) (phs : List Hand)
    (dh : Hand) (st : GameState) : Res Unit :=
  match playHand opts (dealerStrategy opts.hit_soft_seventeen) fuel dh 0 0 st with
  | .err e st' => .err e st'
  | .ok dhs st' =>
    match dhs with
    | [dh'] => .ok () (phs.foldl (fun s p => compareHands s p dh') st')
    | _ => .err .assertFail st'

/-- `Game._play_round`: four initial draws in fixed order, natural checks,
player resolution, surrender short-circuit, dealer play and settlement. -/
def playRound (opts : GameOptions) (strat : StrategyM) (fuel : Nat) (bet : ℚ)
    (st : GameState) : Res Unit :=
  match drawCard { cards := [], name := "Player", wager := bet } false st with
  | .err e st1 => .err e st1
  | .ok ph1 st1 =>
    match drawCard { cards := [], name := "Dealer" } true st1 with
    | .err e st2 => .err e st2
    | .ok dh1 st2 =>
      match drawCard ph1 false st2 with
      | .err e st3 => .err e st3
      | .ok ph2 st3 =>
        match drawCard dh1 false st3 with
        | .err e st4 => .err e st4
        | .ok dh2 st4 =>
          if ph2.is_blackjack || dh2.is_blackjack then
            if ph2.is_blackjack && dh2.is_blackjack then
              .ok () { st4 with bankroll := st4.bankroll + bet }
            else if ph2.is_blackjack then
              .ok () { st4 with bankroll := st4.bankroll + bet + opts.payout * bet }
            else .ok () st4
          else
            match playHand opts strat fuel ph2 bet 0 st4 with
            | .err e st5 => .err e st5
            | .ok phs st5 =>
              match phs with
              | [ph'] =>
                if ph'.surrendered then
                  .ok () { st5 with bankroll := st5.bankroll + bet / 2 }
                else dealerPhase opts fuel phs dh2 st5
              | _ => dealerPhase opts fuel phs dh2 st5

/-- Session loop of `Game.play` (the `while True` loop).  `sfuel` bounds the
number of rounds (an artifact of the embedding; in Python the loop is bounded
by shoe depletion), `hfuel` is handed to hand resolution, `round` is the
index given to `get_bet`. -/
def playSession (opts : GameOptions) (strat : StrategyM) :
    Nat → Nat → Nat → GameState → Res Unit
  | 0, _, _, st => .err .outOfFuel st
  | sfuel + 1, hfuel, round, st =>
    match strat.get_bet round opts.min_bet st.bankroll with
    | none => .ok () st
    | some bet =>
      if bet = 0 ∨ st.bankroll < bet ∨ percentFull st ≤ opts.shoe_min_percent then
        .ok () st
      else
        match makeBet bet st with
        | .err e st' => .err e st'
        | .ok _ st' =>
          match playRound opts strat hfuel bet st' with
          | .ok _ st'' => playSession opts strat sfuel hfuel (round + 1) st''
          | .err .emptyShoe st'' => .ok () st''
          | .err e st'' => .err e st''

/-- `Game.play`: run the session from a fresh state over the given shoe
(in draw order) and return `(final_bankroll, ev)`. -/
def play (opts : GameOptions) (strat : StrategyM) (sfuel hfuel : Nat)
    (bankroll : ℚ) (shoe : List Card) : Res (ℚ × ℚ) :=
  let st0 : GameState := { bankroll := bankroll, total_bet := 0, shoe := shoe,
                           shoeSize := opts.num_decks * 52, upcard := none }
  match playSession opts strat sfuel hfuel 0 st0 with
  | .err e st => .err e st
  | .ok _ st =>
    let ev := if st.total_bet = 0 then 0 else (st.bankroll - bankroll) / st.total_bet
    .ok (st.bankroll, ev) st

/-! ### Basic strategy embedding (`strategy.py` `Basic`) -/

/-- `Basic._handle_split`; `none` models `AssertionError("Incomplete strategy")`. -/
def handleSplit (player dealer : Nat) (can_surrender can_double : Bool) :
    Option Action :=
  if player = 11 then some .split
  else if player = 10 then some .stand
  else if player = 9 then
    if 2 ≤ dealer ∧ dealer ≤ 9 ∧ dealer ≠ 7 then some .split else some .stand
  else if player = 8 then
    if can_surrender && (dealer == 11) then some .surrender else some .split
  else if player = 7 then
    if dealer ≤ 7 then some .split else some .hit
  else if player = 6 then
    if dealer ≤ 6 then some .split else some .hit
  else if player = 5 then
    if can_double && decide (dealer ≤ 9) then some .double else some .hit
  else if player = 4 then
    if 5 ≤ dealer ∧ dealer ≤ 6 then some .split else some .hit
  else if 2 ≤ player ∧ player ≤ 3 then
    if dealer ≤ 7 then some .split else some .hit
  else none

/-- `Basic._handle_soft_total`; `none` models both `AssertionError` branches
("Game engine bug" at 10, "Incomplete strategy" at the end). -/
def handleSoftTotal (player dealer : Nat) (can_double : Bool) : Option Action :=
  if player = 11 then
    if can_double && (dealer == 6) then some .double else some .hit
  else if player = 10 then none
  else if player = 9 then some .stand
  else if player = 8 then
    if can_double && (dealer == 6) then some .double else some .stand
  else if player = 7 then
    if 9 ≤ dealer then some .hit
    else if 7 ≤ dealer ∧ dealer ≤ 8 then some .stand
    else if can_double then some .double else some .stand
  else if player = 6 then
    if can_double && decide (3 ≤ dealer ∧ dealer ≤ 6) then some .double
    else some .hit
  else if 4 ≤ player ∧ player ≤ 5 then
    if can_double && decide (4 ≤ dealer ∧ dealer ≤ 6) then some .double
    else some .hit
  else if 2 ≤ player ∧ player ≤ 3 then
    if can_double && decide (5 ≤ dealer ∧ dealer ≤ 6) then some .double
    else some .hit
  else none

/-- `Basic._handle_hard_total`; `none` models `AssertionError("Incomplete strategy")`. -/
def handleHardTotal (player dealer : Nat) (can_surrender can_double : Bool) :
    Option Action :=
  if 18 ≤ player then some .stand
  else if player = 17 then
    if dealer = 11 then (if can_surrender then some .surrender else some .stand)
    else some .stand
  else if player = 16 then
    if dealer ≤ 6 then some .stand
    else if dealer ≤ 8 then some .hit
    else if can_surrender then some .surrender else some .hit
  else if player = 15 then
    if dealer ≤ 6 then some .stand
    else if dealer ≤ 9 then some .hit
    else if can_surrender then some .surrender else some .hit
  else if 13 ≤ player ∧ player ≤ 14 then
    if dealer ≤ 6 then some .stand else some .hit
  else if player = 12 then
    if 4 ≤ dealer ∧ dealer ≤ 6 then some .stand else some .hit
  else if player = 11 then
    if can_double then some .double else some .hit
  else if player = 10 then
    if dealer ≤ 9 then (if can_double then some .double else some .hit)
    else some .hit
  else if player = 9 then
    if 3 ≤ dealer ∧ dealer ≤ 6 then (if can_double then some .double else some .hit)
    else some .hit
  else if 4 ≤ player ∧ player ≤ 8 then some .hit
  else none

/-- `Basic.get_action`; `none` models any assert failure / `AssertionError`. -/
def basicGetAction (h : Hand) (actions : List Action) (upcard : Option Nat) :
    Option Action :=
  match upcard with
  | none => none
  | some u =>
    if u = 0 then none
    else if h.is_bust || h.is_blackjack then none
    else if !(decide (Action.hit ∈ actions) && decide (Action.stand ∈ actions)) then
      none
    else
      let can_surrender := decide (Action.surrender ∈ actions)
      let can_double := decide (Action.double ∈ actions)
      let can_split := decide (Action.split ∈ actions)
      if can_split then
        match h.cards with
        | c :: _ => handleSplit c.value u can_surrender can_double
        | [] => none
      else if (h.cards.length == 2) && h.has_ace then
        match h.cards with
        | [a, b] =>
          handleSoftTotal (if b.is_ace then a.value else b.value) u can_double
        | _ => none
      else handleHardTotal h.value u can_surrender can_double

/-- Strategy for the C10 session demonstration: bet the minimum once, then
stop; while playing, double whenever allowed, else stand. -/
def demoStrategy : StrategyM where
  get_bet := fun round mb _ => if round = 0 then some mb else none
  get_action := fun _ actions _ =>
    if Action.double ∈ actions then .double else .stand

/-- Rules for the C10 demonstration: the defaults with the shoe cutoff at 0
(so a five-card shoe suffices for one round). -/
def demoOptions : GameOptions :=
  { shoe_min_percent := 0 }

/-- Five-card shoe (in draw order) for the C10 demonstration: the player is
dealt 6,5 (hard 11) and doubles, drawing T for 21; the dealer stands on
K,9 = 19. -/
def demoShoe : List Card :=
  [mkCard "6" "♠️", mkCard "K" "♠️", mkCard "5" "♠️", mkCard "9" "♠️",
   mkCard "T" "♠️"]

/-! ### Proof-side predicates for the basic-strategy totality claim -/

/-- Allowed results of `Basic._handle_split` relative to surrender/double
availability: any of HIT/STAND/SPLIT, SURRENDER only if available, DOUBLE
only if available, and never an "incomplete table" failure. -/
def splitResultOk (cs cd : Bool) : Option Action → Bool
  | some .hit => true
  | some .stand => true
  | some .surrender => cs
  | some .double => cd
  | some .split => true
  | none => false

/-- Allowed results of `Basic._handle_soft_total`: HIT/STAND, DOUBLE only if
available, never SURRENDER/SPLIT, and never a failure. -/
def softResultOk (cd : Bool) : Option Action → Bool
  | some .hit => true
  | some .stand => true
  | some .double => cd
  | some .surrender => false
  | some .split => false
  | none => false

/-- Allowed results of `Basic._handle_hard_total`: HIT/STAND, SURRENDER and
DOUBLE only if available, never SPLIT, and never a failure. -/
def hardResultOk (cs cd : Bool) : Option Action → Bool
  | some .hit => true
  | some .stand => true
  | some .surrender => cs
  | some .double => cd
  | some .split => false
  | none => false

theorem specAceLoop_eq_reduceAces (total aces : Nat) :
    specAceLoop total aces = reduceAces total aces := by
  induction aces generalizing total with
  | zero => rw [specAceLoop]; simp [reduceAces]
  | succ a ih =>
    rw [specAceLoop, reduceAces]
    by_cases hv : 21 < total
    · simp [hv, ih]
    · simp [hv]

theorem reduceAces_of_le {v : Nat} (a : Nat) (hv : v ≤ 21) :
    reduceAces v a = (v, a) := by
  cases a with
  | zero => rfl
  | succ b => simp [reduceAces, Nat.not_lt.mpr hv]

/-- Adding 10 to the pre-reduction total of a soft 21 still reduces to 21,
with one more ace forced down. -/
theorem reduceAces_add_ten {v a a' : Nat} (h : reduceAces v a = (21, a'))
    (ha : 0 < a') : reduceAces (v + 10) a = (21, a' - 1) := by
  induction a generalizing v with
  | zero =>
    simp [reduceAces] at h
    omega
  | succ b ih =>
    by_cases hv : 21 < v
    · rw [reduceAces, if_pos hv] at h
      have h10 : v - 10 + 10 = v := by omega
      have := ih h
      rw [h10] at this
      rw [reduceAces, if_pos (by omega : 21 < v + 10)]
      simpa using this
    · rw [reduceAces, if_neg hv] at h
      obtain ⟨hv21, ha'⟩ := Prod.mk.injEq .. ▸ h
      subst hv21
      rw [reduceAces, if_pos (by omega : 21 < 21 + 10)]
      simp [reduceAces_of_le b (le_refl 21), ← ha']

theorem Hand.valuePair_eq (h : Hand) :
    h.valuePair = ((reduceAces h.cardSum h.aceCount).1,
      decide (0 < (reduceAces h.cardSum h.aceCount).2)) := by
  cases hE : reduceAces h.cardSum h.aceCount with
  | mk v a => simp [Hand.valuePair, hE]

/-- Full characterization of membership in the legal-action list computed by
`Game._play_hand`. -/
theorem mem_legalActions (opts : GameOptions) (bankroll : ℚ) (h : Hand)
    (bet : ℚ) (d : Nat) (a : Action) :
    a ∈ legalActions opts bankroll h bet d ↔
      a = .hit ∨ a = .stand ∨
      (h.cards.length = 2 ∧
        ((a = .surrender ∧ opts.late_surrender = true ∧ d = 0) ∨
         (a = .double ∧ bet ≤ bankroll ∧
           (opts.double_after_split = true ∨ d = 0)) ∨
         (a = .split ∧ bet ≤ bankroll ∧ h.can_split = true ∧
           d < opts.max_split))) := by
  cases a <;>
    (simp only [legalActions]
     split_ifs <;> simp_all)

/-- Claim C2: at every decision point the legal-action list always contains
HIT and STAND; SURRENDER is offered iff the hand has exactly two cards, late
surrender is enabled and the split depth is 0; DOUBLE iff two cards,
bankroll ≥ bet and (double-after-split or depth 0); SPLIT iff two cards,
bankroll ≥ bet, the pair is split-eligible and the depth is below the
configured maximum. -/
theorem claim2_legal_actions (opts : GameOptions) (bankroll : ℚ) (h : Hand)
    (bet : ℚ) (d : Nat) :
    Action.hit ∈ legalActions opts bankroll h bet d ∧
    Action.stand ∈ legalActions opts bankroll h bet d ∧
    (Action.surrender ∈ legalActions opts bankroll h bet d ↔
      h.cards.length = 2 ∧ opts.late_surrender = true ∧ d = 0) ∧
    (Action.double ∈ legalActions opts bankroll h bet d ↔
      h.cards.length = 2 ∧ bet ≤ bankroll ∧
        (opts.double_after_split = true ∨ d = 0)) ∧
    (Action.split ∈ legalActions opts bankroll h bet d ↔
      h.cards.length = 2 ∧ bet ≤ bankroll ∧ h.can_split = true ∧
        d < opts.max_split) := by
  refine ⟨?_, ?_, ?_, ?_, ?_⟩ <;> rw [mem_legalActions] <;> simp

/-- Claim C1: for every hand with card values in {2..10, 11}, `Hand.value`
and `Hand.is_soft` agree with the spec's ace-reduction algorithm (§4.1),
`Hand.is_bust` holds iff the value exceeds 21, `Hand.is_blackjack` holds iff
the value equals 21; moreover {A,A} has value 12 and is soft, and {A,A,9}
has value 21, is soft, and is blackjack. -/
theorem claim1_hand_valuation :
    (∀ (h : Hand), (∀ c ∈ h.cards, 2 ≤ c.value ∧ c.value ≤ 11) →
      (h.value = (specValuation h.cards).1 ∧
       h.is_soft = (specValuation h.cards).2 ∧
       (h.is_bust = true ↔ 21 < h.value) ∧
       (h.is_blackjack = true ↔ h.value = 21))) ∧
    ((mkHand [mkCard "A" "♠️", mkCard "A" "♥️"]).value = 12 ∧
     (mkHand [mkCard "A" "♠️", mkCard "A" "♥️"]).is_soft = true) ∧
    ((mkHand [mkCard "A" "♠️", mkCard "A" "♥️", mkCard "9" "♠️"]).value = 21 ∧
     (mkHand [mkCard "A" "♠️", mkCard "A" "♥️", mkCard "9" "♠️"]).is_soft = true ∧
     (mkHand [mkCard "A" "♠️", mkCard "A" "♥️", mkCard "9" "♠️"]).is_blackjack = true) := by
  refine ⟨?_, by decide, by decide⟩
  intro h _
  have hfil : List.filter Card.is_ace h.cards =
      List.filter (fun c => c.value == 11) h.cards := rfl
  refine ⟨?_, ?_, by simp [Hand.is_bust], by simp [Hand.is_blackjack]⟩
  · simp [Hand.value, Hand.valuePair, Hand.cardSum, Hand.aceCount,
      specValuation, specAceLoop_eq_reduceAces, ← hfil]
  · simp [Hand.is_soft, Hand.valuePair, Hand.cardSum, Hand.aceCount,
      specValuation, specAceLoop_eq_reduceAces, ← hfil]

/-- Witness for C1 at the concrete hand {A♠, K♠}. -/
theorem claim1_hand_valuation_witness :
    (mkHand [mkCard "A" "♠️", mkCard "K" "♠️"]).value =
      (specValuation [mkCard "A" "♠️", mkCard "K" "♠️"]).1 ∧
    (mkHand [mkCard "A" "♠️", mkCard "K" "♠️"]).is_soft =
      (specValuation [mkCard "A" "♠️", mkCard "K" "♠️"]).2 ∧
    ((mkHand [mkCard "A" "♠️", mkCard "K" "♠️"]).is_bust = true ↔
      21 < (mkHand [mkCard "A" "♠️", mkCard "K" "♠️"]).value) ∧
    ((mkHand [mkCard "A" "♠️", mkCard "K" "♠️"]).is_blackjack = true ↔
      (mkHand [mkCard "A" "♠️", mkCard "K" "♠️"]).value = 21) :=
  claim1_hand_valuation.1 (mkHand [mkCard "A" "♠️", mkCard "K" "♠️"]) (by decide)

/-- Claim C8: `Hand.can_split` is false whenever the hand does not have
exactly two cards, and on any two shoe-built cards it holds iff the two rank
labels (faces) are identical; in particular K,Q is never split-eligible
while K,K is. -/
theorem claim8_can_split :
    (∀ (h : Hand), h.cards.length ≠ 2 → h.can_split = false) ∧
    (∀ f1 ∈ shoeFaces, ∀ f2 ∈ shoeFaces, ∀ s1 ∈ shoeSuits, ∀ s2 ∈ shoeSuits,
      ((mkHand [mkCard f1 s1, mkCard f2 s2]).can_split = true ↔ f1 = f2)) ∧
    (mkHand [mkCard "K" "♠️", mkCard "Q" "♠️"]).can_split = false ∧
    (mkHand [mkCard "K" "♠️", mkCard "K" "♥️"]).can_split = true := by
  refine ⟨?_, by decide, by decide, by decide⟩
  intro h hlen
  simp only [Hand.can_split]
  split
  · rename_i c1 c2 heq
    exact absurd (by rw [heq]; rfl) hlen
  · rfl

/-- Witness for C8: a one-card hand is not splittable, and the deck-level
characterization at K♠/K♥. -/
theorem claim8_can_split_witness :
    (mkHand [mkCard "A" "♠️"]).can_split = false ∧
    ((mkHand [mkCard "K" "♠️", mkCard "K" "♥️"]).can_split = true ↔
      ("K" : String) = "K") :=
  ⟨claim8_can_split.1 (mkHand [mkCard "A" "♠️"]) (by decide),
   claim8_can_split.2.1 "K" (by decide) "K" (by decide) "♠️" (by decide)
     "♥️" (by decide)⟩

/-- Successful `Game._make_bet`: when the bankroll covers the bet, the
bankroll is debited and the cumulative total wagered is credited by exactly
the bet. -/
theorem makeBet_ok {bet : ℚ} {st : GameState} (h : bet ≤ st.bankroll) :
    makeBet bet st = .ok ()
      { st with bankroll := st.bankroll - bet,
                total_bet := st.total_bet + bet } := by
  simp [makeBet, not_lt.mpr h]

/-- Unfolding of the DOUBLE branch of `Game._play_hand`. -/
theorem playHand_double {opts : GameOptions} {strat : StrategyM} {fuel : Nat}
    {hand : Hand} {bet : ℚ} {d : Nat} {st : GameState} {c : Card}
    {rest : List Card}
    (ha : strat.get_action hand (legalActions opts st.bankroll hand bet d)
      st.upcard = .double)
    (hmem : Action.double ∈ legalActions opts st.bankroll hand bet d)
    (hb : bet ≤ st.bankroll) (hs : st.shoe = c :: rest) :
    playHand opts strat (fuel + 1) hand bet d st =
      .ok [(hand.addCard c).double]
        { st with bankroll := st.bankroll - bet,
                  total_bet := st.total_bet + bet, shoe := rest } := by
  simp only [playHand]
  rw [ha, if_pos hmem, makeBet_ok hb]
  simp [drawCard, hs]

/-- Unfolding of the SPLIT branch of `Game._play_hand` when the pre-split
hand contains an ace: one extra bet is charged, the two one-card hands each
draw exactly one card and both stand immediately. -/
theorem playHand_split_ace {opts : GameOptions} {strat : StrategyM} {fuel : Nat}
    {hand : Hand} {bet : ℚ} {d : Nat} {st : GameState} {c1 c2 a b : Card}
    {rest : List Card}
    (ha : strat.get_action hand (legalActions opts st.bankroll hand bet d)
      st.upcard = .split)
    (hmem : Action.split ∈ legalActions opts st.bankroll hand bet d)
    (hb : bet ≤ st.bankroll) (hc : hand.cards = [c1, c2])
    (hace : hand.has_ace = true) (hs : st.shoe = a :: b :: rest) :
    playHand opts strat (fuel + 1) hand bet d st =
      .ok [⟨[c1, a], hand.name ++ " Split 1", bet, false⟩,
           ⟨[c2, b], hand.name ++ " Split 2", bet, false⟩]
        { st with bankroll := st.bankroll - bet,
                  total_bet := st.total_bet + bet, shoe := rest } := by
  simp only [playHand]
  rw [ha, if_pos hmem, hc]
  simp only [makeBet_ok hb]
  simp [drawCard, hs, hace, Hand.addCard]

/-- Unfolding of the SPLIT branch of `Game._play_hand` when the pre-split
hand contains no ace: one extra bet is charged, and each one-card hand draws
one card and is then resolved recursively at split depth `d + 1`. -/
theorem playHand_split_noace {opts : GameOptions} {strat : StrategyM}
    {fuel : Nat} {hand : Hand} {bet : ℚ} {d : Nat} {st : GameState}
    {c1 c2 a : Card} {rest : List Card}
    (ha : strat.get_action hand (legalActions opts st.bankroll hand bet d)
      st.upcard = .split)
    (hmem : Action.split ∈ legalActions opts st.bankroll hand bet d)
    (hb : bet ≤ st.bankroll) (hc : hand.cards = [c1, c2])
    (hace : hand.has_ace = false) (hs : st.shoe = a :: rest) :
    playHand opts strat (fuel + 1) hand bet d st =
      (match playHand opts strat fuel
          ⟨[c1, a], hand.name ++ " Split 1", bet, false⟩ bet (d + 1)
          { st with bankroll := st.bankroll - bet,
                    total_bet := st.total_bet + bet, shoe := rest } with
       | .err e stx => .err e stx
       | .ok hs1 st1 =>
         match drawCard ⟨[c2], hand.name ++ " Split 2", bet, false⟩ false st1 with
         | .err e st2 => .err e st2
         | .ok h2 st2 =>
           match playHand opts strat fuel h2 bet (d + 1) st2 with
           | .err e sty => .err e sty
           | .ok hs2 st2' => .ok (hs1 ++ hs2) st2') := by
  simp only [playHand]
  rw [ha, if_pos hmem, hc]
  simp only [makeBet_ok hb]
  simp [drawCard, hs, hace, Hand.addCard]

/-- Claim C3: when the chosen action is SPLIT on a two-card hand at depth
`d`, one additional bet is charged (bankroll down by `bet`, total wagered up
by `bet`); two new hands are formed, each with one original card, wager
`bet`, and one freshly drawn card; if the pre-split hand contained an ace
both new hands stand immediately with exactly two cards (no strategy
consultation), otherwise each new hand is resolved recursively at depth
`d + 1` and the results are concatenated. -/
theorem claim3_split (opts : GameOptions) (strat : StrategyM) (fuel : Nat)
    (hand : Hand) (bet : ℚ) (d : Nat) (st : GameState) (c1 c2 : Card)
    (ha : strat.get_action hand (legalActions opts st.bankroll hand bet d)
      st.upcard = .split)
    (hmem : Action.split ∈ legalActions opts st.bankroll hand bet d)
    (hc : hand.cards = [c1, c2]) :
    (∀ (a b : Card) (rest : List Card), hand.has_ace = true →
      st.shoe = a :: b :: rest →
      playHand opts strat (fuel + 1) hand bet d st =
        .ok [⟨[c1, a], hand.name ++ " Split 1", bet, false⟩,
             ⟨[c2, b], hand.name ++ " Split 2", bet, false⟩]
          { st with bankroll := st.bankroll - bet,
                    total_bet := st.total_bet + bet, shoe := rest }) ∧
    (∀ (a : Card) (rest : List Card), hand.has_ace = false →
      st.shoe = a :: rest →
      playHand opts strat (fuel + 1) hand bet d st =
        (match playHand opts strat fuel
            ⟨[c1, a], hand.name ++ " Split 1", bet, false⟩ bet (d + 1)
            { st with bankroll := st.bankroll - bet,
                      total_bet := st.total_bet + bet, shoe := rest } with
         | .err e stx => .err e stx
         | .ok hs1 st1 =>
           match drawCard ⟨[c2], hand.name ++ " Split 2", bet, false⟩
               false st1 with
           | .err e st2 => .err e st2
           | .ok h2 st2 =>
             match playHand opts strat fuel h2 bet (d + 1) st2 with
             | .err e sty => .err e sty
             | .ok hs2 st2' => .ok (hs1 ++ hs2) st2')) := by
  have hb : bet ≤ st.bankroll := by
    rcases (mem_legalActions opts st.bankroll hand bet d .split).mp hmem with
      h | h | ⟨-, h | h | h⟩ <;> simp_all
  exact ⟨fun a b rest hace hs => playHand_split_ace ha hmem hb hc hace hs,
         fun a rest hace hs => playHand_split_noace ha hmem hb hc hace hs⟩

/-- Witness for C3: splitting {A♠, A♥} with bet 10 from bankroll 100 under
the default rules; both split hands stand at exactly two cards. -/
theorem claim3_split_witness :
    playHand {} ⟨fun _ mb _ => some mb, fun _ _ _ => .split⟩ 1
      ⟨[mkCard "A" "♠️", mkCard "A" "♥️"], "Player", 10, false⟩ 10 0
      ⟨100, 10, [mkCard "9" "♠️", mkCard "5" "♠️"], 312, some 10⟩ =
    .ok [⟨[mkCard "A" "♠️", mkCard "9" "♠️"], "Player" ++ " Split 1", 10, false⟩,
         ⟨[mkCard "A" "♥️", mkCard "5" "♠️"], "Player" ++ " Split 2", 10, false⟩]
      ⟨(100 : ℚ) - 10, (10 : ℚ) + 10, [], 312, some 10⟩ :=
  (claim3_split {} ⟨fun _ mb _ => some mb, fun _ _ _ => .split⟩ 0
      ⟨[mkCard "A" "♠️", mkCard "A" "♥️"], "Player", 10, false⟩ 10 0
      ⟨100, 10, [mkCard "9" "♠️", mkCard "5" "♠️"], 312, some 10⟩
      (mkCard "A" "♠️") (mkCard "A" "♥️") rfl (by decide) rfl).1
    (mkCard "9" "♠️") (mkCard "5" "♠️") [] (by decide) rfl

/-- Claim C4: settlement of one player terminal hand against the final
dealer hand: player bust leaves the bankroll unchanged (taking precedence,
even if the dealer is also bust); otherwise a dealer bust or a higher player
value credits 2 × wager; equal values credit the wager (push refund); a
lower player value leaves the bankroll unchanged. -/
theorem claim4_compare_hands (st : GameState) (p d : Hand) :
    (p.is_bust = true → compareHands st p d = st) ∧
    (p.is_bust = false → d.is_bust = true →
      compareHands st p d = { st with bankroll := st.bankroll + 2 * p.wager }) ∧
    (p.is_bust = false → d.is_bust = false → d.value < p.value →
      compareHands st p d = { st with bankroll := st.bankroll + 2 * p.wager }) ∧
    (p.is_bust = false → d.is_bust = false → p.value = d.value →
      compareHands st p d = { st with bankroll := st.bankroll + p.wager }) ∧
    (p.is_bust = false → d.is_bust = false → p.value < d.value →
      compareHands st p d = st) := by
  refine ⟨?_, ?_, ?_, ?_, ?_⟩
  · intro hb
    simp [compareHands, hb]
  · intro hb hd
    simp [compareHands, hb, hd]
  · intro hb hd hlt
    simp [compareHands, hb, hd, hlt]
  · intro hb hd heq
    have hnlt : ¬ d.value < p.value := by omega
    simp [compareHands, hb, hd, hnlt, heq]
  · intro hb hd hlt
    have h1 : ¬ d.value < p.value := by omega
    have h2 : p.value ≠ d.value := by omega
    simp [compareHands, hb, hd, h1, h2]

/-- Witness for C4: a bust player hand against a bust dealer hand leaves the
bankroll unchanged (bust precedence), and a push credits exactly the wager. -/
theorem claim4_compare_hands_witness :
    compareHands ⟨100, 10, [], 312, none⟩
      ⟨[mkCard "T" "♠️", mkCard "T" "♥️", mkCard "5" "♠️"], "Player", 10, false⟩
      ⟨[mkCard "T" "♦️", mkCard "T" "♣️", mkCard "6" "♠️"], "Dealer", 0, false⟩ =
      ⟨100, 10, [], 312, none⟩ ∧
    compareHands ⟨100, 10, [], 312, none⟩
      ⟨[mkCard "T" "♠️", mkCard "9" "♥️"], "Player", 10, false⟩
      ⟨[mkCard "T" "♦️", mkCard "9" "♣️"], "Dealer", 0, false⟩ =
      ⟨(100 : ℚ) + 10, 10, [], 312, none⟩ :=
  ⟨(claim4_compare_hands ⟨100, 10, [], 312, none⟩
      ⟨[mkCard "T" "♠️", mkCard "T" "♥️", mkCard "5" "♠️"], "Player", 10, false⟩
      ⟨[mkCard "T" "♦️", mkCard "T" "♣️", mkCard "6" "♠️"], "Dealer", 0, false⟩).1
    (by decide),
   (claim4_compare_hands ⟨100, 10, [], 312, none⟩
      ⟨[mkCard "T" "♠️", mkCard "9" "♥️"], "Player", 10, false⟩
      ⟨[mkCard "T" "♦️", mkCard "9" "♣️"], "Dealer", 0, false⟩).2.2.2.1
    (by decide) (by decide) (by decide)⟩

/-- Claim C5: a round deals four cards in fixed order (player, dealer
upcard, player, dealer hole card); if either two-card hand is a natural no
further play occurs (exactly four cards leave the shoe) and, relative to the
pre-bet bankroll, both naturals net 0, a player-only natural nets
`payout × bet`, and a dealer-only natural nets `−bet`. -/
theorem claim5_naturals (opts : GameOptions) (strat : StrategyM) (fuel : Nat)
    (bet : ℚ) (st : GameState) (c1 c2 c3 c4 : Card) (rest : List Card)
    (hb : bet ≤ st.bankroll) (hs : st.shoe = c1 :: c2 :: c3 :: c4 :: rest) :
    makeBet bet st = .ok ()
      { st with bankroll := st.bankroll - bet,
                total_bet := st.total_bet + bet } ∧
    ((⟨[c1, c3], "Player", bet, false⟩ : Hand).is_blackjack = true →
     (⟨[c2, c4], "Dealer", 0, false⟩ : Hand).is_blackjack = true →
      playRound opts strat fuel bet
        { st with bankroll := st.bankroll - bet,
                  total_bet := st.total_bet + bet } =
      .ok () { st with total_bet := st.total_bet + bet, shoe := rest,
                       upcard := some c2.value }) ∧
    ((⟨[c1, c3], "Player", bet, false⟩ : Hand).is_blackjack = true →
     (⟨[c2, c4], "Dealer", 0, false⟩ : Hand).is_blackjack = false →
      playRound opts strat fuel bet
        { st with bankroll := st.bankroll - bet,
                  total_bet := st.total_bet + bet } =
      .ok () { st with bankroll := st.bankroll + opts.payout * bet,
                       total_bet := st.total_bet + bet, shoe := rest,
                       upcard := some c2.value }) ∧
    ((⟨[c1, c3], "Player", bet, false⟩ : Hand).is_blackjack = false →
     (⟨[c2, c4], "Dealer", 0, false⟩ : Hand).is_blackjack = true →
      playRound opts strat fuel bet
        { st with bankroll := st.bankroll - bet,
                  total_bet := st.total_bet + bet } =
      .ok () { st with bankroll := st.bankroll - bet,
                       total_bet := st.total_bet + bet, shoe := rest,
                       upcard := some c2.value }) := by
  refine ⟨makeBet_ok hb, ?_, ?_, ?_⟩
  · intro hp hd
    simp only [playRound, drawCard, hs]
    simp [Hand.addCard, hp, hd]
  · intro hp hd
    simp only [playRound, drawCard, hs]
    simp [Hand.addCard, hp, hd]
  · intro hp hd
    simp only [playRound, drawCard, hs]
    simp [Hand.addCard, hp, hd]

/-- Witness for C5: player draws {A♠, K♠} (natural), dealer {K♥, 2♠} (no
natural), bet 10 from bankroll 100: the player is paid `1.5 × 10` plus the
refunded wager. -/
theorem claim5_naturals_witness :
    playRound {} (dealerStrategy false) 1 10
      { bankroll := (100 : ℚ) - 10, total_bet := (0 : ℚ) + 10,
        shoe := [mkCard "A" "♠️", mkCard "K" "♥️", mkCard "K" "♠️",
                 mkCard "2" "♠️"],
        shoeSize := 312, upcard := none } =
    .ok () { bankroll := (100 : ℚ) + ({} : GameOptions).payout * 10,
             total_bet := (0 : ℚ) + 10, shoe := [], shoeSize := 312,
             upcard := some (mkCard "K" "♥️").value } :=
  (claim5_naturals {} (dealerStrategy false) 1 10
      ⟨100, 0, [mkCard "A" "♠️", mkCard "K" "♥️", mkCard "K" "♠️",
                mkCard "2" "♠️"], 312, none⟩
      (mkCard "A" "♠️") (mkCard "K" "♥️") (mkCard "K" "♠️") (mkCard "2" "♠️")
      [] (by decide) rfl).2.2.1 (by decide) (by decide)

/-- The shoe-exhaustion error is always caught by the session loop: no run
of `playSession` ever surfaces it. -/
theorem playSession_ne_emptyShoe (opts : GameOptions) (strat : StrategyM) :
    ∀ (sfuel hfuel round : Nat) (st st' : GameState),
      playSession opts strat sfuel hfuel round st ≠ .err .emptyShoe st' := by
  intro sfuel
  induction sfuel with
  | zero =>
    intro hfuel round st st' h
    simp [playSession] at h
  | succ n ih =>
    intro hfuel round st st' h
    simp only [playSession] at h
    cases hgb : strat.get_bet round opts.min_bet st.bankroll with
    | none => rw [hgb] at h; simp at h
    | some b =>
      simp only [hgb] at h
      by_cases hc : b = 0 ∨ st.bankroll < b ∨
          percentFull st ≤ opts.shoe_min_percent
      · rw [if_pos hc] at h
        simp at h
      · rw [if_neg hc] at h
        by_cases hlt : st.bankroll < b
        · simp [makeBet, hlt] at h
        · simp only [makeBet_ok (not_lt.mp hlt)] at h
          cases hpr : playRound opts strat hfuel b
              { st with bankroll := st.bankroll - b,
                        total_bet := st.total_bet + b } with
          | ok u st'' =>
            simp only [hpr] at h
            exact ih hfuel (round + 1) st'' st' h
          | err e st'' =>
            simp only [hpr] at h
            cases e <;> simp at h

/-- Claim C6: the session loop stops — before deducting anything — exactly
when `get_bet` is falsy, the bet exceeds the bankroll, or the shoe's
remaining percentage is at or below the cutoff; otherwise it deducts the bet
first and plays a round, absorbing a mid-round shoe exhaustion (session ends
with that bet kept, the error never escaping); and `play` returns
`ev = (final − initial) / total wagered`, which is 0 when nothing was
wagered. -/
theorem claim6_session (opts : GameOptions) (strat : StrategyM)
    (sfuel hfuel round : Nat) (st : GameState) :
    (strat.get_bet round opts.min_bet st.bankroll = none →
      playSession opts strat (sfuel + 1) hfuel round st = .ok () st) ∧
    (∀ b : ℚ, strat.get_bet round opts.min_bet st.bankroll = some b →
      (b = 0 ∨ st.bankroll < b ∨ percentFull st ≤ opts.shoe_min_percent) →
      playSession opts strat (sfuel + 1) hfuel round st = .ok () st) ∧
    (∀ b : ℚ, strat.get_bet round opts.min_bet st.bankroll = some b →
      ¬(b = 0 ∨ st.bankroll < b ∨ percentFull st ≤ opts.shoe_min_percent) →
      playSession opts strat (sfuel + 1) hfuel round st =
        (match playRound opts strat hfuel b
            { st with bankroll := st.bankroll - b,
                      total_bet := st.total_bet + b } with
         | .ok _ st'' => playSession opts strat sfuel hfuel (round + 1) st''
         | .err .emptyShoe st'' => .ok () st''
         | .err e st'' => .err e st'')) ∧
    (∀ st' : GameState,
      playSession opts strat sfuel hfuel round st ≠ .err .emptyShoe st') ∧
    (∀ (bankroll : ℚ) (shoe : List Card) (st' : GameState),
      play opts strat sfuel hfuel bankroll shoe ≠ .err .emptyShoe st') ∧
    (∀ (bankroll : ℚ) (shoe : List Card) (fb ev : ℚ) (stf : GameState),
      play opts strat sfuel hfuel bankroll shoe = .ok (fb, ev) stf →
      fb = stf.bankroll ∧
      ev = (if stf.total_bet = 0 then 0
        else (stf.bankroll - bankroll) / stf.total_bet) ∧
      (stf.total_bet = 0 → ev = 0)) := by
  refine ⟨?_, ?_, ?_, playSession_ne_emptyShoe opts strat sfuel hfuel round st,
    ?_, ?_⟩
  · intro hgb
    simp only [playSession]
    rw [hgb]
  · intro b hgb hc
    simp only [playSession, hgb]
    rw [if_pos hc]
  · intro b hgb hc
    have hle : b ≤ st.bankroll := by
      push_neg at hc
      exact hc.2.1
    simp only [playSession, hgb]
    rw [if_neg hc]
    simp only [makeBet_ok hle]
  · intro bankroll shoe st' hplay
    simp only [play] at hplay
    cases hps : playSession opts strat sfuel hfuel 0
        { bankroll := bankroll, total_bet := 0, shoe := shoe,
          shoeSize := opts.num_decks * 52, upcard := none } with
    | ok u stg =>
      rw [hps] at hplay
      exact absurd hplay (by simp)
    | err e stg =>
      rw [hps] at hplay
      rw [Res.err.injEq] at hplay
      obtain ⟨he, hst⟩ := hplay
      subst he
      exact playSession_ne_emptyShoe opts strat sfuel hfuel 0 _ stg hps
  · intro bankroll shoe fb ev stf hplay
    simp only [play] at hplay
    cases hps : playSession opts strat sfuel hfuel 0
        { bankroll := bankroll, total_bet := 0, shoe := shoe,
          shoeSize := opts.num_decks * 52, upcard := none } with
    | ok u stg =>
      rw [hps] at hplay
      rw [Res.ok.injEq] at hplay
      obtain ⟨hpair, hstf⟩ := hplay
      rw [Prod.mk.injEq] at hpair
      obtain ⟨hfb, hev⟩ := hpair
      subst hstf
      refine ⟨hfb.symm, hev.symm, ?_⟩
      intro h0
      rw [← hev, if_pos h0]
    | err e stg =>
      rw [hps] at hplay
      exact absurd hplay (by simp)

/-- Witness for C6: a strategy whose first `get_bet` is `None` ends the
session at once with the state untouched, and the returned EV of the
corresponding `play` run is 0 since nothing was wagered. -/
theorem claim6_session_witness :
    playSession {} ⟨fun _ _ _ => none, fun _ _ _ => .stand⟩ 1 1 0
      ⟨100, 0, [], 312, none⟩ = .ok () ⟨100, 0, [], 312, none⟩ ∧
    ((100 : ℚ) = (⟨100, 0, [], 312, none⟩ : GameState).bankroll ∧
     (0 : ℚ) = (if (⟨100, 0, [], 312, none⟩ : GameState).total_bet = 0 then 0
        else ((⟨100, 0, [], 312, none⟩ : GameState).bankroll - 100) /
          (⟨100, 0, [], 312, none⟩ : GameState).total_bet) ∧
     ((⟨100, 0, [], 312, none⟩ : GameState).total_bet = 0 → (0 : ℚ) = 0)) :=
  ⟨(claim6_session {} ⟨fun _ _ _ => none, fun _ _ _ => .stand⟩ 0 1 0
      ⟨100, 0, [], 312, none⟩).1 rfl,
   (claim6_session {} ⟨fun _ _ _ => none, fun _ _ _ => .stand⟩ 1 1 0
      ⟨100, 0, [], 312, none⟩).2.2.2.2.2 100 [] 100 0
      ⟨100, 0, [], 312, none⟩ rfl⟩

/-- Counterexample to C9 as stated: the hand {T,5,6} has value 21, yet
appending a king changes the value (to 31). -/
theorem claim9_counterexample :
    (mkHand [mkCard "T" "♠️", mkCard "5" "♠️", mkCard "6" "♠️"]).value = 21 ∧
    ¬(((mkHand [mkCard "T" "♠️", mkCard "5" "♠️", mkCard "6" "♠️"]).addCard
        (mkCard "K" "♠️")).value = 21) := by
  decide

/-- Claim C9 (amended): for every hand whose value is 21 and which is soft,
appending a ten-valued card leaves the value equal to 21. -/
theorem claim9_soft21_append (h : Hand) (c : Card) (hv : h.value = 21)
    (hs : h.is_soft = true) (hc : c.value = 10) : (h.addCard c).value = 21 := by
  have hvp := Hand.valuePair_eq h
  have h1 : (reduceAces h.cardSum h.aceCount).1 = 21 := by
    have : h.value = (reduceAces h.cardSum h.aceCount).1 := by
      rw [Hand.value, hvp]
    omega
  have h2 : 0 < (reduceAces h.cardSum h.aceCount).2 := by
    have : h.is_soft = decide (0 < (reduceAces h.cardSum h.aceCount).2) := by
      rw [Hand.is_soft, hvp]
    rw [this] at hs
    exact of_decide_eq_true hs
  have hpair : reduceAces h.cardSum h.aceCount =
      (21, (reduceAces h.cardSum h.aceCount).2) := by
    rw [← h1]
  have key := reduceAces_add_ten hpair h2
  have hsum : (h.addCard c).cardSum = h.cardSum + 10 := by
    simp [Hand.cardSum, Hand.addCard, hc]
  have hace : (h.addCard c).aceCount = h.aceCount := by
    simp [Hand.aceCount, Hand.addCard, Card.is_ace, hc]
  rw [Hand.value, Hand.valuePair_eq, hsum, hace, key]

/-- Witness for the amended C9: {A♠, K♠} is a soft 21; appending Q♠ keeps
the value at 21. -/
theorem claim9_soft21_append_witness :
    ((mkHand [mkCard "A" "♠️", mkCard "K" "♠️"]).addCard
      (mkCard "Q" "♠️")).value = 21 :=
  claim9_soft21_append (mkHand [mkCard "A" "♠️", mkCard "K" "♠️"])
    (mkCard "Q" "♠️") (by decide) (by decide) (by decide)

theorem handleSplit_total : ∀ cs cd : Bool, ∀ p ≤ 11, ∀ u ≤ 11,
    2 ≤ p → 2 ≤ u → splitResultOk cs cd (handleSplit p u cs cd) = true := by
  decide

theorem handleSoftTotal_total : ∀ cd : Bool, ∀ p ≤ 11, ∀ u ≤ 11,
    2 ≤ p → p ≠ 10 → 2 ≤ u →
    softResultOk cd (handleSoftTotal p u cd) = true := by
  decide

theorem handleHardTotal_total : ∀ cs cd : Bool, ∀ p ≤ 20, ∀ u ≤ 11,
    4 ≤ p → 2 ≤ u → hardResultOk cs cd (handleHardTotal p u cs cd) = true := by
  decide

theorem reduceAces_fst_min (v a : Nat) : min v 12 ≤ (reduceAces v a).1 := by
  induction a generalizing v with
  | zero =>
    simp only [reduceAces]
    exact min_le_left v 12
  | succ b ih =>
    rw [reduceAces]
    by_cases hv : 21 < v
    · rw [if_pos hv]
      have := ih (v - 10)
      omega
    · rw [if_neg hv]
      exact min_le_left v 12

theorem Hand.cardSum_ge (h : Hand) (hlen : 2 ≤ h.cards.length)
    (hvals : ∀ c ∈ h.cards, 2 ≤ c.value) : 4 ≤ h.cardSum := by
  rcases hc : h.cards with _ | ⟨c1, _ | ⟨c2, t⟩⟩
  · rw [hc] at hlen; simp at hlen
  · rw [hc] at hlen; simp at hlen
  · have h1 := hvals c1 (by rw [hc]; simp)
    have h2 := hvals c2 (by rw [hc]; simp)
    simp [Hand.cardSum, hc]
    omega

theorem Hand.value_ge (h : Hand) (hlen : 2 ≤ h.cards.length)
    (hvals : ∀ c ∈ h.cards, 2 ≤ c.value) : 4 ≤ h.value := by
  have hs := Hand.cardSum_ge h hlen hvals
  have hm := reduceAces_fst_min h.cardSum h.aceCount
  rw [Hand.value, Hand.valuePair_eq]
  simp only []
  omega

theorem Hand.can_split_shape {h : Hand} (hc : h.can_split = true) :
    ∃ c1 c2, h.cards = [c1, c2] := by
  unfold Hand.can_split at hc
  split at hc
  · rename_i c1 c2 heq
    exact ⟨c1, c2, heq⟩
  · simp at hc

/-- Claim C7: on the whole domain of the basic-strategy tables — a hand of
at least two cards with card values in {2..10, 11}, total value at most 20
(non-bust, non-21), an upcard in 2..11, and any legal-action list of the
shape the engine computes (containing HIT and STAND, containing SPLIT only
for a split-eligible pair) — `Basic.get_action` succeeds (its assert and
"Incomplete strategy" branches are unreachable) and returns a member of the
supplied legal-action list. -/
theorem claim7_basic_strategy (h : Hand) (actions : List Action) (u : Nat)
    (hlen : 2 ≤ h.cards.length)
    (hvals : ∀ c ∈ h.cards, 2 ≤ c.value ∧ c.value ≤ 11)
    (hv : h.value ≤ 20) (hu2 : 2 ≤ u) (hu11 : u ≤ 11)
    (hhit : Action.hit ∈ actions) (hstand : Action.stand ∈ actions)
    (hsp : Action.split ∈ actions → h.can_split = true) :
    ∃ a, basicGetAction h actions (some u) = some a ∧ a ∈ actions := by
  have hu0 : ¬ u = 0 := by omega
  have hbust : h.is_bust = false := by
    simp [Hand.is_bust]
    omega
  have hbj : h.is_blackjack = false := by
    simp [Hand.is_blackjack]
    omega
  simp only [basicGetAction, if_neg hu0, hbust, hbj, hhit, hstand]
  simp only [decide_True, Bool.or_self, Bool.false_eq_true, if_false,
    Bool.and_self, Bool.not_true, decide_eq_true_eq]
  by_cases hcs : Action.split ∈ actions
  · obtain ⟨c1, c2, hc⟩ := Hand.can_split_shape (hsp hcs)
    rw [if_pos hcs, hc]
    have hb := hvals c1 (by rw [hc]; simp)
    have htot := handleSplit_total (decide (Action.surrender ∈ actions))
      (decide (Action.double ∈ actions)) c1.value hb.2 u hu11 hb.1 hu2
    cases hr : handleSplit c1.value u (decide (Action.surrender ∈ actions))
        (decide (Action.double ∈ actions)) with
    | none =>
      rw [hr] at htot
      simp [splitResultOk] at htot
    | some a =>
      rw [hr] at htot
      refine ⟨a, by simp [hr], ?_⟩
      cases a with
      | hit => exact hhit
      | stand => exact hstand
      | surrender =>
        simp only [splitResultOk] at htot
        exact of_decide_eq_true htot
      | double =>
        simp only [splitResultOk] at htot
        exact of_decide_eq_true htot
      | split => exact hcs
  · rw [if_neg hcs]
    by_cases hsoft : (h.cards.length == 2 && h.has_ace) = true
    · rw [if_pos hsoft]
      rw [Bool.and_eq_true] at hsoft
      have hlen2 : h.cards.length = 2 := by
        have := hsoft.1
        simpa using this
      obtain ⟨a, b, hc⟩ := List.length_eq_two.mp hlen2
      have hhasace : h.has_ace = true := hsoft.2
      rw [hc]
      have hav := hvals a (by rw [hc]; simp)
      have hbv := hvals b (by rw [hc]; simp)
      by_cases hba : b.is_ace = true
      · simp only [hba, if_true]
        have hb11 : b.value = 11 := by
          simpa [Card.is_ace] using hba
        have ho10 : a.value ≠ 10 := by
          intro h10
          have hval21 : h.value = 21 := by
            have hsum : h.cardSum = 21 := by
              simp [Hand.cardSum, hc, h10, hb11]
            have hace : h.aceCount = 1 := by
              simp [Hand.aceCount, hc, Card.is_ace, h10, hb11]
            rw [Hand.value, Hand.valuePair_eq, hsum, hace]
            decide
          omega
        have htot := handleSoftTotal_total (decide (Action.double ∈ actions))
          a.value hav.2 u hu11 hav.1 ho10 hu2
        cases hr : handleSoftTotal a.value u (decide (Action.double ∈ actions)) with
        | none =>
          rw [hr] at htot
          simp [softResultOk] at htot
        | some act =>
          rw [hr] at htot
          refine ⟨act, by simp [hr], ?_⟩
          cases act with
          | hit => exact hhit
          | stand => exact hstand
          | surrender => simp [softResultOk] at htot
          | double =>
            simp only [softResultOk] at htot
            exact of_decide_eq_true htot
          | split => simp [softResultOk] at htot
      · simp only [hba, if_false]
        have haace : a.is_ace = true := by
          simp [Hand.has_ace, hc] at hhasace
          rcases hhasace with h1 | h1
          · exact h1
          · exact absurd h1 (by simpa using hba)
        have ha11 : a.value = 11 := by
          simpa [Card.is_ace] using haace
        have ho10 : b.value ≠ 10 := by
          intro h10
          have hval21 : h.value = 21 := by
            have hsum : h.cardSum = 21 := by
              simp [Hand.cardSum, hc, h10, ha11]
            have hace : h.aceCount = 1 := by
              have hbna : b.is_ace = false := by simpa using hba
              simp [Hand.aceCount, hc, haace, hbna]
            rw [Hand.value, Hand.valuePair_eq, hsum, hace]
            decide
          omega
        have htot := handleSoftTotal_total (decide (Action.double ∈ actions))
          b.value hbv.2 u hu11 hbv.1 ho10 hu2
        cases hr : handleSoftTotal b.value u (decide (Action.double ∈ actions)) with
        | none =>
          rw [hr] at htot
          simp [softResultOk] at htot
        | some act =>
          rw [hr] at htot
          refine ⟨act, by simp [hr], ?_⟩
          cases act with
          | hit => exact hhit
          | stand => exact hstand
          | surrender => simp [softResultOk] at htot
          | double =>
            simp only [softResultOk] at htot
            exact of_decide_eq_true htot
          | split => simp [softResultOk] at htot
    · rw [if_neg hsoft]
      have h4 : 4 ≤ h.value := Hand.value_ge h hlen (fun c hcm => (hvals c hcm).1)
      have htot := handleHardTotal_total (decide (Action.surrender ∈ actions))
        (decide (Action.double ∈ actions)) h.value hv u hu11 h4 hu2
      cases hr : handleHardTotal h.value u (decide (Action.surrender ∈ actions))
          (decide (Action.double ∈ actions)) with
      | none =>
        rw [hr] at htot
        simp [hardResultOk] at htot
      | some act =>
        rw [hr] at htot
        refine ⟨act, by simp [hr], ?_⟩
        cases act with
        | hit => exact hhit
        | stand => exact hstand
        | surrender =>
          simp only [hardResultOk] at htot
          exact of_decide_eq_true htot
        | double =>
          simp only [hardResultOk] at htot
          exact of_decide_eq_true htot
        | split => simp [hardResultOk] at htot

/-- Witness for C7: a pair of twos against upcard 5 with every action
available (the table answers SPLIT, a member of the list). -/
theorem claim7_basic_strategy_witness :
    ∃ a, basicGetAction
        ⟨[mkCard "2" "♠️", mkCard "2" "♥️"], "Player", 10, false⟩
        [Action.hit, Action.stand, Action.surrender, Action.double,
         Action.split] (some 5) = some a ∧
      a ∈ [Action.hit, Action.stand, Action.surrender, Action.double,
           Action.split] :=
  claim7_basic_strategy
    ⟨[mkCard "2" "♠️", mkCard "2" "♥️"], "Player", 10, false⟩
    [Action.hit, Action.stand, Action.surrender, Action.double, Action.split]
    5 (by decide) (by decide) (by decide) (by decide) (by decide) (by decide)
    (by decide) (fun _ => by decide)

/-- Claim C10: every extra charge during hand resolution goes through the
same `_make_bet` accounting as an initial round bet — bankroll down by the
charge, cumulative total wagered up by the charge — for the initial bet
itself, the DOUBLE charge and the SPLIT charge; consequently the EV
denominator counts double/split charges: in the demonstration session one
round with bet 10 and one double yields total wagered 20, final bankroll
120, and EV (120 − 100) / 20 = 1. -/
theorem claim10_wager_accounting :
    (∀ (bet : ℚ) (st : GameState), bet ≤ st.bankroll →
      makeBet bet st = .ok ()
        { st with bankroll := st.bankroll - bet,
                  total_bet := st.total_bet + bet }) ∧
    (∀ (opts : GameOptions) (strat : StrategyM) (fuel : Nat) (hand : Hand)
      (bet : ℚ) (d : Nat) (st : GameState) (c : Card) (rest : List Card),
      strat.get_action hand (legalActions opts st.bankroll hand bet d)
        st.upcard = .double →
      Action.double ∈ legalActions opts st.bankroll hand bet d →
      bet ≤ st.bankroll → st.shoe = c :: rest →
      playHand opts strat (fuel + 1) hand bet d st =
        .ok [(hand.addCard c).double]
          { st with bankroll := st.bankroll - bet,
                    total_bet := st.total_bet + bet, shoe := rest }) ∧
    (∀ (opts : GameOptions) (strat : StrategyM) (fuel : Nat) (hand : Hand)
      (bet : ℚ) (d : Nat) (st : GameState) (c1 c2 a b : Card)
      (rest : List Card),
      strat.get_action hand (legalActions opts st.bankroll hand bet d)
        st.upcard = .split →
      Action.split ∈ legalActions opts st.bankroll hand bet d →
      bet ≤ st.bankroll → hand.cards = [c1, c2] → hand.has_ace = true →
      st.shoe = a :: b :: rest →
      playHand opts strat (fuel + 1) hand bet d st =
        .ok [⟨[c1, a], hand.name ++ " Split 1", bet, false⟩,
             ⟨[c2, b], hand.name ++ " Split 2", bet, false⟩]
          { st with bankroll := st.bankroll - bet,
                    total_bet := st.total_bet + bet, shoe := rest }) ∧
    play demoOptions demoStrategy 2 1 100 demoShoe =
      .ok (120, 1) ⟨120, 20, [], 312, some 10⟩ := by
  refine ⟨fun bet st h => makeBet_ok h, ?_, ?_, ?_⟩
  · intro opts strat fuel hand bet d st c rest ha hmem hb hs
    exact playHand_double ha hmem hb hs
  · intro opts strat fuel hand bet d st c1 c2 a b rest ha hmem hb hc hace hs
    exact playHand_split_ace ha hmem hb hc hace hs
  · norm_num +decide [play, playSession, playRound, playHand, dealerPhase,
      compareHands, drawCard, makeBet, legalActions, percentFull,
      demoStrategy, demoOptions, demoShoe, mkCard, faceValue, Hand.addCard,
      Hand.is_blackjack, Hand.is_bust, Hand.value, Hand.valuePair,
      Hand.cardSum, Hand.aceCount, Hand.can_split, Hand.has_ace, Card.is_ace,
      reduceAces, dealerStrategy, dealerAction, Hand.is_soft, Hand.double]

/-- Witness for C10: the accounting equation of `_make_bet` at bet 10 from
bankroll 100. -/
theorem claim10_wager_accounting_witness :
    makeBet 10 ⟨100, 0, [], 312, none⟩ = .ok ()
      { bankroll := (100 : ℚ) - 10, total_bet := (0 : ℚ) + 10, shoe := [],
        shoeSize := 312, upcard := none } :=
  claim10_wager_accounting.1 10 ⟨100, 0, [], 312, none⟩ (by decide)

end Blackjack
